/-
  Verification of the script-representation layer of the blazefox engine slice
  (src/src/js/vm/JSScript.h): shared bytecode interning, reference counting,
  tier attachment ordering, relazification eligibility, trailing-array offsets,
  pinned source units under deferred compression, lazy-script enclosing-scope
  transitions, delazification idempotence, and the eval-cache flag pair.

  Shallow embedding: each C++ class relevant to a claim is translated to a Lean
  structure; member functions become Lean functions on those structures.
  MOZ_ASSERT preconditions are modelled by returning Option (none = assertion
  failure).  Operations whose bodies live in JSScript.cpp (absent from the
  repository slice) are modelled from the specification and marked as such in
  their doc comments.
-/
import Mathlib

set_option autoImplicit false

/-! ## Shared Bytecode Block: SharedScriptData (JSScript.h lines 1278-1349) -/

/-- Size of a GCPtrAtom slot in the payload (a pointer, 8 bytes on 64-bit).
The claims are insensitive to the exact value; it only scales dataLength. -/
def sizeofGCPtrAtom : Nat := 8

/-- SharedScriptData: refcounted immutable blob holding `natoms_` atom
references, then `codeLength_` bytecode bytes, then `noteLength_` note bytes,
in one contiguous payload `data_` (modelled as the byte list). -/
structure SharedScriptData where
  refCount_ : Nat
  natoms_ : Nat
  codeLength_ : Nat
  noteLength_ : Nat
  data_ : List Nat
deriving DecidableEq, Repr

def SharedScriptData.refCount (d : SharedScriptData) : Nat := d.refCount_

def SharedScriptData.natoms (d : SharedScriptData) : Nat := d.natoms_

def SharedScriptData.codeLength (d : SharedScriptData) : Nat := d.codeLength_

def SharedScriptData.numNotes (d : SharedScriptData) : Nat := d.noteLength_

/-- dataLength() = natoms_ * sizeof(GCPtrAtom) + codeLength_ + noteLength_. -/
def SharedScriptData.dataLength (d : SharedScriptData) : Nat :=
  d.natoms_ * sizeofGCPtrAtom + d.codeLength_ + d.noteLength_

def SharedScriptData.incRefCount (d : SharedScriptData) : SharedScriptData :=
  { d with refCount_ := d.refCount_ + 1 }

/-- mozilla::ArrayEqual over the first n bytes of two payloads. -/
def arrayEqual (a b : List Nat) (n : Nat) : Bool :=
  a.take n == b.take n

/-- ScriptBytecodeHasher::match (JSScript.h lines 1367-1379): compares atom
count, code length, note count, then the payload over dataLength() bytes.
(Named matches because match is a Lean keyword.) -/
def ScriptBytecodeHasher.matches (entry data : SharedScriptData) : Bool :=
  if entry.natoms != data.natoms then false
  else if entry.codeLength != data.codeLength then false
  else if entry.numNotes != data.numNotes then false
  else arrayEqual entry.data_ data.data_ data.dataLength

/-- Structural identity of two blocks as the spec words it: equal atom counts,
instruction-stream lengths and note-stream lengths, and byte-for-byte
identical payloads over dataLength() bytes. -/
def structurallyIdentical (a b : SharedScriptData) : Prop :=
  a.natoms_ = b.natoms_ ∧ a.codeLength_ = b.codeLength_ ∧ a.noteLength_ = b.noteLength_ ∧
  a.data_.take b.dataLength = b.data_.take b.dataLength

/-- The process-wide script data table: registered blocks keyed by identity
(an id stands for the C++ pointer), plus an allocation counter. -/
structure ScriptDataTable where
  entries : List (Nat × SharedScriptData)
  nextId : Nat
deriving DecidableEq, Repr

/-- First registered entry whose stored block matches the candidate under
ScriptBytecodeHasher::match. -/
def lookupEntry (cand : SharedScriptData) :
    List (Nat × SharedScriptData) → Option (Nat × SharedScriptData)
  | [] => none
  | e :: rest =>
    if ScriptBytecodeHasher.matches e.2 cand then some e else lookupEntry cand rest

/-- Modelled from the spec: JSScript::shareScriptData and the table mutation
live in JSScript.cpp, which is not part of this repository slice.  Per spec
4.2, intern looks up a structural match in the process-wide table; on hit it
increments the match's reference count and discards the candidate, returning
the registered instance; on miss it inserts the candidate (the table holding
one reference) and returns it. -/
def ScriptDataTable.intern (t : ScriptDataTable) (cand : SharedScriptData) :
    Nat × ScriptDataTable :=
  match lookupEntry cand t.entries with
  | some (i, _) =>
    (i, { t with entries := t.entries.map fun e => if e.1 = i then (e.1, e.2.incRefCount) else e })
  | none =>
    (t.nextId, { entries := t.entries ++ [(t.nextId, cand.incRefCount)], nextId := t.nextId + 1 })

theorem lookupEntry_spec (cand : SharedScriptData) (l : List (Nat × SharedScriptData))
    (i : Nat) (b : SharedScriptData) (h : lookupEntry cand l = some (i, b)) :
    (i, b) ∈ l ∧ ScriptBytecodeHasher.matches b cand = true := by
  induction l with
  | nil => simp [lookupEntry] at h
  | cons e rest ih =>
    by_cases hm : ScriptBytecodeHasher.matches e.2 cand = true
    · rw [lookupEntry, if_pos hm, Option.some_inj] at h
      subst h
      exact ⟨List.mem_cons_self _ _, hm⟩
    · rw [lookupEntry, if_neg hm] at h
      rcases ih h with ⟨hmem, hmatch⟩
      exact ⟨List.mem_cons_of_mem _ hmem, hmatch⟩

theorem matches_iff (e d : SharedScriptData) :
    ScriptBytecodeHasher.matches e d = true ↔ structurallyIdentical e d := by
  unfold ScriptBytecodeHasher.matches structurallyIdentical arrayEqual
  unfold SharedScriptData.natoms SharedScriptData.codeLength SharedScriptData.numNotes
  constructor
  · intro h
    by_cases h1 : e.natoms_ = d.natoms_
    · by_cases h2 : e.codeLength_ = d.codeLength_
      · by_cases h3 : e.noteLength_ = d.noteLength_
        · simp [h1, h2, h3] at h
          exact ⟨h1, h2, h3, h⟩
        · simp [h1, h2, h3] at h
      · simp [h1, h2] at h
    · simp [h1] at h
  · rintro ⟨h1, h2, h3, h4⟩
    simp [h1, h2, h3, h4]

/-- C1. Shared Bytecode Block interning deduplicates by structural equality:
the match predicate holds iff atom counts, code lengths and note lengths are
equal and payloads agree byte-for-byte over dataLength() bytes; interning a
candidate that structurally matches a registered block returns that block's
identity with its reference count incremented, adds no entry, and leaves
every other entry untouched. -/
theorem c1_intern_dedup (e d : SharedScriptData) (t : ScriptDataTable)
    (cand : SharedScriptData) (i : Nat) (b : SharedScriptData)
    (hfind : lookupEntry cand t.entries = some (i, b)) :
    (ScriptBytecodeHasher.matches e d = true ↔ structurallyIdentical e d) ∧
    (t.intern cand).1 = i ∧
    (i, b) ∈ t.entries ∧
    ScriptBytecodeHasher.matches b cand = true ∧
    (t.intern cand).2.entries.length = t.entries.length ∧
    (t.intern cand).2.entries.map Prod.fst = t.entries.map Prod.fst ∧
    (i, b.incRefCount) ∈ (t.intern cand).2.entries ∧
    (∀ j c, (j, c) ∈ t.entries → j ≠ i → (j, c) ∈ (t.intern cand).2.entries) := by
  rcases lookupEntry_spec cand t.entries i b hfind with ⟨hmem, hmatch⟩
  refine ⟨matches_iff e d, ?_, hmem, hmatch, ?_, ?_, ?_, ?_⟩
  · simp [ScriptDataTable.intern, hfind]
  · simp [ScriptDataTable.intern, hfind]
  · simp only [ScriptDataTable.intern, hfind]
    rw [List.map_map]
    apply List.map_congr_left
    intro a _
    by_cases ha : a.1 = i <;> simp [ha]
  · simp only [ScriptDataTable.intern, hfind]
    have : (i, b.incRefCount) = (fun e => if e.1 = i then (e.1, e.2.incRefCount) else e) (i, b) := by
      simp
    rw [this]
    exact List.mem_map_of_mem _ hmem
  · intro j c hj hne
    simp only [ScriptDataTable.intern, hfind]
    have : (j, c) = (fun e => if e.1 = i then (e.1, e.2.incRefCount) else e) (j, c) := by
      simp [hne]
    rw [this]
    exact List.mem_map_of_mem _ hj

/-- Concrete witness for C1: a table registering one block and a structurally
identical candidate with a different refcount. -/
def c1Block : SharedScriptData := ⟨2, 1, 3, 2, [10, 20, 30, 40, 50, 60, 70, 80, 1, 2, 3, 9, 9]⟩

def c1Cand : SharedScriptData := ⟨1, 1, 3, 2, [10, 20, 30, 40, 50, 60, 70, 80, 1, 2, 3, 9, 9]⟩

def c1Table : ScriptDataTable := ⟨[(0, c1Block)], 1⟩

theorem c1_intern_dedup_wit :
    (ScriptBytecodeHasher.matches c1Block c1Cand = true ↔
      structurallyIdentical c1Block c1Cand) ∧
    (c1Table.intern c1Cand).1 = 0 ∧
    (0, c1Block) ∈ c1Table.entries ∧
    ScriptBytecodeHasher.matches c1Block c1Cand = true ∧
    (c1Table.intern c1Cand).2.entries.length = c1Table.entries.length ∧
    (c1Table.intern c1Cand).2.entries.map Prod.fst = c1Table.entries.map Prod.fst ∧
    (0, c1Block.incRefCount) ∈ (c1Table.intern c1Cand).2.entries ∧
    (∀ j c, (j, c) ∈ c1Table.entries → j ≠ 0 → (j, c) ∈ (c1Table.intern c1Cand).2.entries) :=
  c1_intern_dedup c1Block c1Cand c1Table c1Cand 0 c1Block (by decide)

/-! ## Reference counting: ScriptSource::decref (lines 708-714) and
SharedScriptData::decRefCount (lines 1301-1307) -/

/-- Outcome of one reference release. -/
inductive RcResult
  | alive (remain : Nat)
  | destroyed
  | assertFailed
deriving DecidableEq, Repr

/-- ScriptSource::decref: MOZ_ASSERT(refs != 0); if (--refs == 0) js_delete(this). -/
def ScriptSource.decref (refs : Nat) : RcResult :=
  if refs = 0 then .assertFailed
  else if refs - 1 = 0 then .destroyed
  else .alive (refs - 1)

/-- SharedScriptData::decRefCount: MOZ_ASSERT(refCount_ != 0);
uint32_t remain = --refCount_; if (remain == 0) js_free(this). -/
def SharedScriptData.decRefCountOf (refCount_ : Nat) : RcResult :=
  if refCount_ = 0 then .assertFailed
  else
    let remain := refCount_ - 1
    if remain = 0 then .destroyed else .alive remain

/-- One create/attach/release step on a refcounted instance. -/
inductive RcOp
  | incref
  | decref
deriving DecidableEq, Repr

/-- A refcounted instance together with whether it is still allocated. -/
structure RcObj where
  refs : Nat
  alive : Bool
deriving DecidableEq, Repr

/-- Step semantics: operations on a freed instance are invalid (use after
free), release at count zero is an assertion failure, release from one frees
the instance exactly once. -/
def rcStep (o : RcObj) : RcOp → Option RcObj
  | .incref => if o.alive then some ⟨o.refs + 1, true⟩ else none
  | .decref =>
    if o.alive then
      match ScriptSource.decref o.refs with
      | .alive r => some ⟨r, true⟩
      | .destroyed => some ⟨0, false⟩
      | .assertFailed => none
    else none

/-- Run a sequence of incref/decref operations. -/
def rcRun (o : RcObj) : List RcOp → Option RcObj
  | [] => some o
  | op :: ops =>
    match rcStep o op with
    | some o2 => rcRun o2 ops
    | none => none

theorem rcStep_inv (o o2 : RcObj) (op : RcOp) (hinv : o.alive = true ↔ o.refs ≠ 0)
    (h : rcStep o op = some o2) : o2.alive = true ↔ o2.refs ≠ 0 := by
  cases op with
  | incref =>
    by_cases ha : o.alive = true
    · simp [rcStep, ha] at h
      rw [← h]
      simp
    · have ha2 : o.alive = false := by revert ha; cases o.alive <;> simp
      simp [rcStep, ha2] at h
  | decref =>
    by_cases ha : o.alive = true
    · have hr : o.refs ≠ 0 := hinv.mp ha
      by_cases h1 : o.refs = 1
      · simp [rcStep, ha, ScriptSource.decref, h1] at h
        rw [← h]
        simp
      · have : o.refs - 1 ≠ 0 := by omega
        simp [rcStep, ha, ScriptSource.decref, hr, this] at h
        rw [← h]
        simp
        omega
    · have ha2 : o.alive = false := by revert ha; cases o.alive <;> simp
      simp [rcStep, ha2] at h

theorem rcRun_inv (ops : List RcOp) (o o2 : RcObj) (hinv : o.alive = true ↔ o.refs ≠ 0)
    (h : rcRun o ops = some o2) : o2.alive = true ↔ o2.refs ≠ 0 := by
  induction ops generalizing o with
  | nil =>
    simp [rcRun] at h
    rw [← h]
    exact hinv
  | cons op ops ih =>
    unfold rcRun at h
    cases hs : rcStep o op with
    | none => rw [hs] at h; simp at h
    | some o1 =>
      rw [hs] at h
      exact ih o1 (rcStep_inv o o1 op hinv hs) h

/-- C4. Reference-counted destruction iff zero: a release destroys the
instance iff the count transitions from one to zero; a release from a count
greater than one leaves it alive at count minus one; a release at count zero
is an assertion failure; SharedScriptData::decRefCount behaves identically to
ScriptSource::decref; no operation is possible on a freed instance (never
double-freed), and along every valid create/attach/release history the
instance is allocated iff its count is nonzero (never leaked). -/
theorem c4_refcount_destroy_iff_zero (n m : Nat) (ops : List RcOp) (o2 : RcObj)
    (hm : 1 < m) (hrun : rcRun ⟨1, true⟩ ops = some o2) :
    (ScriptSource.decref n = .destroyed ↔ n = 1) ∧
    ScriptSource.decref m = .alive (m - 1) ∧
    ScriptSource.decref 0 = .assertFailed ∧
    SharedScriptData.decRefCountOf n = ScriptSource.decref n ∧
    (∀ r : Nat, ∀ op : RcOp, rcStep ⟨r, false⟩ op = none) ∧
    (o2.alive = true ↔ o2.refs ≠ 0) := by
  refine ⟨?_, ?_, ?_, ?_, ?_, ?_⟩
  · constructor
    · intro h
      by_cases h0 : n = 0
      · simp [ScriptSource.decref, h0] at h
      · by_cases h1 : n - 1 = 0
        · omega
        · simp [ScriptSource.decref, h0, h1] at h
    · intro h
      simp [ScriptSource.decref, h]
  · have h0 : m ≠ 0 := by omega
    have h1 : m - 1 ≠ 0 := by omega
    simp [ScriptSource.decref, h0, h1]
  · simp [ScriptSource.decref]
  · by_cases h0 : n = 0
    · simp [ScriptSource.decref, SharedScriptData.decRefCountOf, h0]
    · by_cases h1 : n - 1 = 0
      · simp [ScriptSource.decref, SharedScriptData.decRefCountOf, h0, h1]
      · simp [ScriptSource.decref, SharedScriptData.decRefCountOf, h0, h1]
  · intro r op
    cases op <;> simp [rcStep]
  · exact rcRun_inv ops ⟨1, true⟩ o2 (by simp) hrun

theorem c4_refcount_destroy_iff_zero_wit :
    (ScriptSource.decref 1 = .destroyed ↔ (1 : Nat) = 1) ∧
    ScriptSource.decref 3 = .alive (3 - 1) ∧
    ScriptSource.decref 0 = .assertFailed ∧
    SharedScriptData.decRefCountOf 1 = ScriptSource.decref 1 ∧
    (∀ r : Nat, ∀ op : RcOp, rcStep ⟨r, false⟩ op = none) ∧
    ((⟨0, false⟩ : RcObj).alive = true ↔ (⟨0, false⟩ : RcObj).refs ≠ 0) :=
  c4_refcount_destroy_iff_zero 1 3
    [RcOp.incref, RcOp.decref, RcOp.incref, RcOp.incref, RcOp.decref, RcOp.decref, RcOp.decref]
    ⟨0, false⟩ (by decide) (by decide)

/-! ## ScriptSourceHolder::reset (lines 1175-1184) -/

/-- Heap of ScriptSource instances, indexed by identity: each id has a
reference count and a freed flag set when js_delete runs. -/
structure SrcHeap where
  refs : Nat → Nat
  freed : Nat → Bool

def SrcHeap.setRefs (h : SrcHeap) (i v : Nat) : SrcHeap :=
  { h with refs := fun j => if j = i then v else h.refs j }

/-- ScriptSource::incref on the instance with identity i. -/
def ScriptSource.increfAt (h : SrcHeap) (i : Nat) : SrcHeap :=
  h.setRefs i (h.refs i + 1)

/-- ScriptSource::decref on the instance with identity i: MOZ_ASSERT(refs != 0);
if (--refs == 0) js_delete(this). -/
def ScriptSource.decrefAt (h : SrcHeap) (i : Nat) : Option SrcHeap :=
  if h.refs i = 0 then none
  else
    let r := h.refs i - 1
    let h2 := h.setRefs i r
    if r = 0 then some { h2 with freed := fun j => if j = i then true else h.freed j }
    else some h2

/-- A ScriptSourceHolder: owns one reference to the source it points to. -/
structure ScriptSourceHolder where
  ss : Option Nat
deriving DecidableEq, Repr

/-- ScriptSourceHolder::reset(newss): incref before decref just in case
ss == newss; then if (ss) ss->decref(); ss = newss. -/
def ScriptSourceHolder.reset (hold : ScriptSourceHolder) (h : SrcHeap)
    (newss : Option Nat) : Option (ScriptSourceHolder × SrcHeap) :=
  let h1 := match newss with
            | some i => ScriptSource.increfAt h i
            | none => h
  match hold.ss with
  | some j =>
    match ScriptSource.decrefAt h1 j with
    | some h2 => some (⟨newss⟩, h2)
    | none => none
  | none => some (⟨newss⟩, h1)

/-- C9. Resetting a holder to the very ScriptSource it already holds leaves
that source alive with its reference count unchanged: because reset increfs
the new source before decrefing the old one, the inner decref sees a count of
at least two, so the free-on-zero branch is not taken, no assertion fails, and
both the count and the freed flag of the held source are unchanged. -/
theorem c9_reset_self_preserves (h : SrcHeap) (i : Nat) (hold : ScriptSourceHolder)
    (hss : hold.ss = some i) (hpos : h.refs i ≠ 0) :
    ∃ h2 : SrcHeap, hold.reset h (some i) = some (⟨some i⟩, h2) ∧
      h2.refs i = h.refs i ∧ h2.freed i = h.freed i := by
  have hinc : (ScriptSource.increfAt h i).refs i = h.refs i + 1 := by
    simp [ScriptSource.increfAt, SrcHeap.setRefs]
  refine ⟨(ScriptSource.increfAt h i).setRefs i (h.refs i), ?_, ?_, ?_⟩
  · unfold ScriptSourceHolder.reset
    rw [hss]
    simp only [ScriptSource.decrefAt, hinc]
    have h1 : ¬(h.refs i + 1 = 0) := by omega
    have h2 : ¬(h.refs i + 1 - 1 = 0) := by omega
    simp only [h1, if_false, h2]
    simp
  · simp [SrcHeap.setRefs]
  · simp [SrcHeap.setRefs, ScriptSource.increfAt]

/-- Concrete heap for the C9 witness: one live source with refcount 2
(one reference held by the holder, one by a script). -/
def c9Heap : SrcHeap := ⟨fun _ => 2, fun _ => false⟩

theorem c9_reset_self_preserves_wit :
    ∃ h2 : SrcHeap, ScriptSourceHolder.reset ⟨some 7⟩ c9Heap (some 7) = some (⟨some 7⟩, h2) ∧
      h2.refs 7 = c9Heap.refs 7 ∧ h2.freed 7 = c9Heap.freed 7 :=
  c9_reset_self_preserves c9Heap 7 ⟨some 7⟩ rfl (by decide)

/-! ## JSScript: tier slots, bit-fields and accessors (lines 1396-2420) -/

/-- The ion slot: nullptr, the sentinels ION_DISABLED_SCRIPT /
ION_COMPILING_SCRIPT / ION_PENDING_SCRIPT (reserved addresses 0x1-0x3), or a
real IonScript pointer (identified by a code id). -/
inductive IonSlot
  | null
  | disabledScript
  | compilingScript
  | pendingScript
  | ionScript (code : Nat)
deriving DecidableEq, Repr

/-- The baseline slot: nullptr, BASELINE_DISABLED_SCRIPT (0x1), or a real
BaselineScript pointer. -/
inductive BaselineSlot
  | null
  | disabledScript
  | baselineScript (code : Nat)
deriving DecidableEq, Repr

/-- The JSScript bit-fields used by the claims (JSScript.h lines 1531-1672);
hasArrayBits_ is the ARRAY_KIND_BITS-wide presence bitmask. -/
structure BitFields where
  hasArrayBits_ : Nat
  selfHosted_ : Bool
  treatAsRunOnce_ : Bool
  hasRunOnce_ : Bool
  isActiveEval_ : Bool
  isCachedEval_ : Bool
  hasDebugScript_ : Bool
  doNotRelazify_ : Bool
  hasInnerFunctions_ : Bool
  isDefaultClassConstructor_ : Bool
  isGenerator_ : Bool
  isAsync_ : Bool
deriving DecidableEq, Repr

/-- The JSScript fields the claims depend on: the two tier slots, the
lazyScript and types_ pointers (modelled by optional ids), and the bit-fields. -/
structure JSScript where
  ion : IonSlot
  baseline : BaselineSlot
  lazyScript : Option Nat
  types_ : Option Nat
  bitFields_ : BitFields
deriving DecidableEq, Repr

def JSScript.selfHosted (s : JSScript) : Bool := s.bitFields_.selfHosted_

def JSScript.hasRunOnce (s : JSScript) : Bool := s.bitFields_.hasRunOnce_

def JSScript.isActiveEval (s : JSScript) : Bool := s.bitFields_.isActiveEval_

def JSScript.isCachedEval (s : JSScript) : Bool := s.bitFields_.isCachedEval_

def JSScript.isGenerator (s : JSScript) : Bool := s.bitFields_.isGenerator_

def JSScript.isAsync (s : JSScript) : Bool := s.bitFields_.isAsync_

def JSScript.isDefaultClassConstructor (s : JSScript) : Bool :=
  s.bitFields_.isDefaultClassConstructor_

def JSScript.hasInnerFunctions (s : JSScript) : Bool := s.bitFields_.hasInnerFunctions_

/-- hasIonScript(): ion && ion != ION_DISABLED_SCRIPT &&
ion != ION_COMPILING_SCRIPT && ion != ION_PENDING_SCRIPT. -/
def JSScript.hasIonScript (s : JSScript) : Bool :=
  !(s.ion == .null) && !(s.ion == .disabledScript) &&
  !(s.ion == .compilingScript) && !(s.ion == .pendingScript)

def JSScript.hasAnyIonScript (s : JSScript) : Bool := s.hasIonScript

def JSScript.canIonCompile (s : JSScript) : Bool := !(s.ion == .disabledScript)

def JSScript.isIonCompilingOffThread (s : JSScript) : Bool := s.ion == .compilingScript

/-- hasBaselineScript(): baseline && baseline != BASELINE_DISABLED_SCRIPT. -/
def JSScript.hasBaselineScript (s : JSScript) : Bool :=
  !(s.baseline == .null) && !(s.baseline == .disabledScript)

def JSScript.canBaselineCompile (s : JSScript) : Bool :=
  !(s.baseline == .disabledScript)

/-- isRelazifiable() (lines 2157-2163): (selfHosted() || lazyScript) &&
!hasInnerFunctions_ && !types_ && !isGenerator() && !isAsync() &&
!isDefaultClassConstructor() && !hasBaselineScript() && !hasAnyIonScript() &&
!doNotRelazify_. -/
def JSScript.isRelazifiable (s : JSScript) : Bool :=
  (s.selfHosted || s.lazyScript.isSome) && !s.bitFields_.hasInnerFunctions_ &&
  !s.types_.isSome && !s.isGenerator && !s.isAsync &&
  !s.isDefaultClassConstructor &&
  !s.hasBaselineScript && !s.hasAnyIonScript &&
  !s.bitFields_.doNotRelazify_

/-- Relazification eligibility as claim C3 words it: the code's conjunction
plus the additional requirement of no pending debugger hooks (no entry in the
debug-script side table).  This follows the spec's words, for comparison with
the source's isRelazifiable. -/
def isRelazifiableSpecC3 (s : JSScript) : Bool :=
  s.isRelazifiable && !s.bitFields_.hasDebugScript_

/-- A script eligible under every code condition but carrying a debug-script
side table entry (pending debugger hooks). -/
def c3Script : JSScript :=
  { ion := .null, baseline := .null, lazyScript := some 0, types_ := none,
    bitFields_ :=
      { hasArrayBits_ := 0, selfHosted_ := false, treatAsRunOnce_ := false,
        hasRunOnce_ := false, isActiveEval_ := false, isCachedEval_ := false,
        hasDebugScript_ := true, doNotRelazify_ := false, hasInnerFunctions_ := false,
        isDefaultClassConstructor_ := false, isGenerator_ := false, isAsync_ := false } }

/-- C3 counterexample: isRelazifiable() ignores the debugger side-table, so a
script with pending debugger hooks (hasDebugScript_ set) and every other
condition satisfied is still reported eligible, contradicting the claim's
"eligibility also requires no pending debugger hooks". -/
theorem c3_relazifiable_counterexample :
    c3Script.isRelazifiable = true ∧
    c3Script.bitFields_.hasDebugScript_ = true ∧
    isRelazifiableSpecC3 c3Script = false := by
  decide

/-- C3 (amended). isRelazifiable() returns true iff the script is self-hosted
or has an originating lazy script, records no inner functions, has no
persistent type data attached, is not a generator, not async, not a default
class constructor, has no baseline and no optimizing code attached, and
relazification is not explicitly suppressed; the debugger side-table is not
consulted. -/
theorem c3_relazifiable_iff (s : JSScript) :
    s.isRelazifiable = true ↔
      ((s.bitFields_.selfHosted_ = true ∨ s.lazyScript.isSome = true) ∧
       s.bitFields_.hasInnerFunctions_ = false ∧
       s.types_ = none ∧
       s.bitFields_.isGenerator_ = false ∧
       s.bitFields_.isAsync_ = false ∧
       s.bitFields_.isDefaultClassConstructor_ = false ∧
       s.hasBaselineScript = false ∧
       s.hasIonScript = false ∧
       s.bitFields_.doNotRelazify_ = false) := by
  unfold JSScript.isRelazifiable JSScript.hasAnyIonScript
  unfold JSScript.selfHosted JSScript.isGenerator JSScript.isAsync
  unfold JSScript.isDefaultClassConstructor
  constructor
  · intro h
    simp only [Bool.and_eq_true, Bool.or_eq_true, Bool.not_eq_true'] at h
    refine ⟨h.1.1.1.1.1.1.1.1, h.1.1.1.1.1.1.1.2, ?_, h.1.1.1.1.1.2, h.1.1.1.1.2,
      h.1.1.1.2, h.1.1.2, h.1.2, h.2⟩
    rcases h.1.1.1.1.1.1.2 with h3
    cases ht : s.types_ with
    | none => rfl
    | some v => rw [ht] at h3; simp at h3
  · rintro ⟨h1, h2, h3, h4, h5, h6, h7, h8, h9⟩
    simp [h1, h2, h3, h4, h5, h6, h7, h8, h9]

/-! ## Eval cache flags: cacheForEval / uncacheForEval (lines 1907-1928) -/

/-- cacheForEval(): MOZ_ASSERT(isActiveEval()); MOZ_ASSERT(!isCachedEval());
clears isActiveEval_, sets isCachedEval_, and resets hasRunOnce_ to false. -/
def JSScript.cacheForEval (s : JSScript) : Option JSScript :=
  if s.isActiveEval = false then none
  else if s.isCachedEval = true then none
  else some { s with bitFields_ :=
    { s.bitFields_ with
      isActiveEval_ := false, isCachedEval_ := true, hasRunOnce_ := false } }

/-- uncacheForEval(): MOZ_ASSERT(isCachedEval()); MOZ_ASSERT(!isActiveEval());
clears isCachedEval_ and sets isActiveEval_ (hasRunOnce_ untouched). -/
def JSScript.uncacheForEval (s : JSScript) : Option JSScript :=
  if s.isCachedEval = false then none
  else if s.isActiveEval = true then none
  else some { s with bitFields_ :=
    { s.bitFields_ with isCachedEval_ := false, isActiveEval_ := true } }

/-- setActiveEval(): sets isActiveEval_ (creation-time initializer for eval
scripts). -/
def JSScript.setActiveEval (s : JSScript) : JSScript :=
  { s with bitFields_ := { s.bitFields_ with isActiveEval_ := true } }

/-- States of the eval-cache flag pair reachable in a script's lifetime: any
script that is not in the eval cache (fresh scripts are zero-initialized and
setActiveEval fires at creation, before caching), then any sequence of
cacheForEval / uncacheForEval transitions that pass their assertions. -/
inductive EvalReachable : JSScript → Prop
  | init (s : JSScript) : s.isCachedEval = false → EvalReachable s
  | cache (s t : JSScript) : EvalReachable s → s.cacheForEval = some t → EvalReachable t
  | uncache (s t : JSScript) : EvalReachable s → s.uncacheForEval = some t → EvalReachable t

theorem evalReachable_exclusive (s : JSScript) (h : EvalReachable s) :
    ¬(s.isActiveEval = true ∧ s.isCachedEval = true) := by
  cases h with
  | init s h0 =>
    rintro ⟨_, hc⟩
    rw [h0] at hc
    cases hc
  | cache s t _ hstep =>
    unfold JSScript.cacheForEval at hstep
    by_cases h1 : s.isActiveEval = false
    · rw [if_pos h1] at hstep; cases hstep
    · rw [if_neg h1] at hstep
      by_cases h2 : s.isCachedEval = true
      · rw [if_pos h2] at hstep; cases hstep
      · rw [if_neg h2, Option.some_inj] at hstep
        rintro ⟨ha, _⟩
        rw [← hstep] at ha
        simp [JSScript.isActiveEval] at ha
  | uncache s t _ hstep =>
    unfold JSScript.uncacheForEval at hstep
    by_cases h1 : s.isCachedEval = false
    · rw [if_pos h1] at hstep; cases hstep
    · rw [if_neg h1] at hstep
      by_cases h2 : s.isActiveEval = true
      · rw [if_pos h2] at hstep; cases hstep
      · rw [if_neg h2, Option.some_inj] at hstep
        rintro ⟨_, hc⟩
        rw [← hstep] at hc
        simp [JSScript.isCachedEval] at hc

/-- C10. The eval-cache flags are mutually exclusive in every reachable state;
cacheForEval fires only when the script is active and not cached, swaps the
two flags and resets hasRunOnce, touching nothing else the pair depends on;
uncacheForEval fires only when cached and not active and performs exactly the
reverse swap, leaving hasRunOnce alone; hence both preserve exclusivity. -/
theorem c10_eval_flags_exclusive (s u u2 w w2 : JSScript)
    (hr : EvalReachable s)
    (hc : u.cacheForEval = some u2)
    (hu : w.uncacheForEval = some w2) :
    ¬(s.isActiveEval = true ∧ s.isCachedEval = true) ∧
    u.isActiveEval = true ∧ u.isCachedEval = false ∧
    u2.isActiveEval = false ∧ u2.isCachedEval = true ∧ u2.hasRunOnce = false ∧
    u2.bitFields_.treatAsRunOnce_ = u.bitFields_.treatAsRunOnce_ ∧
    u2.ion = u.ion ∧ u2.baseline = u.baseline ∧
    w.isCachedEval = true ∧ w.isActiveEval = false ∧
    w2.isCachedEval = false ∧ w2.isActiveEval = true ∧
    w2.hasRunOnce = w.hasRunOnce ∧
    ¬(u2.isActiveEval = true ∧ u2.isCachedEval = true) ∧
    ¬(w2.isActiveEval = true ∧ w2.isCachedEval = true) := by
  have hcache : u.isActiveEval = true ∧ u.isCachedEval = false ∧
      u2 = { u with bitFields_ :=
        { u.bitFields_ with
          isActiveEval_ := false, isCachedEval_ := true, hasRunOnce_ := false } } := by
    unfold JSScript.cacheForEval at hc
    by_cases h1 : u.isActiveEval = false
    · rw [if_pos h1] at hc; cases hc
    · rw [if_neg h1] at hc
      by_cases h2 : u.isCachedEval = true
      · rw [if_pos h2] at hc; cases hc
      · rw [if_neg h2, Option.some_inj] at hc
        refine ⟨?_, ?_, hc.symm⟩
        · revert h1; cases hx : u.isActiveEval <;> simp
        · revert h2; cases hx : u.isCachedEval <;> simp
  have huncache : w.isCachedEval = true ∧ w.isActiveEval = false ∧
      w2 = { w with bitFields_ :=
        { w.bitFields_ with isCachedEval_ := false, isActiveEval_ := true } } := by
    unfold JSScript.uncacheForEval at hu
    by_cases h1 : w.isCachedEval = false
    · rw [if_pos h1] at hu; cases hu
    · rw [if_neg h1] at hu
      by_cases h2 : w.isActiveEval = true
      · rw [if_pos h2] at hu; cases hu
      · rw [if_neg h2, Option.some_inj] at hu
        refine ⟨?_, ?_, hu.symm⟩
        · revert h1; cases hx : w.isCachedEval <;> simp
        · revert h2; cases hx : w.isActiveEval <;> simp
  rcases hcache with ⟨hua, huc, hu2⟩
  rcases huncache with ⟨hwc, hwa, hw2⟩
  subst hu2
  subst hw2
  refine ⟨evalReachable_exclusive s hr, hua, huc, ?_⟩
  simp only [JSScript.isActiveEval, JSScript.isCachedEval] at hwc hwa
  simp [JSScript.isActiveEval, JSScript.isCachedEval, JSScript.hasRunOnce, hwc, hwa]

def c10Active : JSScript :=
  { ion := .null, baseline := .null, lazyScript := none, types_ := none,
    bitFields_ :=
      { hasArrayBits_ := 0, selfHosted_ := false, treatAsRunOnce_ := true,
        hasRunOnce_ := true, isActiveEval_ := true, isCachedEval_ := false,
        hasDebugScript_ := false, doNotRelazify_ := false, hasInnerFunctions_ := false,
        isDefaultClassConstructor_ := false, isGenerator_ := false, isAsync_ := false } }

def c10Cached : JSScript :=
  { c10Active with bitFields_ :=
    { c10Active.bitFields_ with
      isActiveEval_ := false, isCachedEval_ := true, hasRunOnce_ := false } }

def c10Uncached : JSScript :=
  { c10Cached with bitFields_ :=
    { c10Cached.bitFields_ with isCachedEval_ := false, isActiveEval_ := true } }

theorem c10_eval_flags_exclusive_wit :
    ¬(c10Active.isActiveEval = true ∧ c10Active.isCachedEval = true) ∧
    c10Active.isActiveEval = true ∧ c10Active.isCachedEval = false ∧
    c10Cached.isActiveEval = false ∧ c10Cached.isCachedEval = true ∧
    c10Cached.hasRunOnce = false ∧
    c10Cached.bitFields_.treatAsRunOnce_ = c10Active.bitFields_.treatAsRunOnce_ ∧
    c10Cached.ion = c10Active.ion ∧ c10Cached.baseline = c10Active.baseline ∧
    c10Cached.isCachedEval = true ∧ c10Cached.isActiveEval = false ∧
    c10Uncached.isCachedEval = false ∧ c10Uncached.isActiveEval = true ∧
    c10Uncached.hasRunOnce = c10Cached.hasRunOnce ∧
    ¬(c10Cached.isActiveEval = true ∧ c10Cached.isCachedEval = true) ∧
    ¬(c10Uncached.isActiveEval = true ∧ c10Uncached.isCachedEval = true) :=
  c10_eval_flags_exclusive c10Active c10Active c10Cached c10Cached c10Uncached
    (EvalReachable.init c10Active (by decide)) (by decide) (by decide)

/-! ## Trailing-array offsets (lines 1522-1528, 2371-2398) -/

/-- The kinds of the optional arrays (enum ArrayKind). -/
inductive ArrayKind
  | CONSTS
  | OBJECTS
  | TRYNOTES
  | SCOPENOTES
deriving DecidableEq, Repr

def ArrayKind.toNat : ArrayKind → Nat
  | .CONSTS => 0
  | .OBJECTS => 1
  | .TRYNOTES => 2
  | .SCOPENOTES => 3

/-- hasArray(kind): hasArrayBits_ & (1 << kind). -/
def JSScript.hasArray (s : JSScript) (kind : ArrayKind) : Bool :=
  (s.bitFields_.hasArrayBits_ &&& (1 <<< kind.toNat)) != 0

def JSScript.hasConsts (s : JSScript) : Bool := s.hasArray .CONSTS

def JSScript.hasObjects (s : JSScript) : Bool := s.hasArray .OBJECTS

def JSScript.hasTrynotes (s : JSScript) : Bool := s.hasArray .TRYNOTES

def JSScript.hasScopeNotes (s : JSScript) : Bool := s.hasArray .SCOPENOTES

def JSScript.hasYieldAndAwaitOffsets (s : JSScript) : Bool :=
  s.isGenerator || s.isAsync

/-- Header sizes of the trailing arrays: sizeof(js::ScopeArray),
sizeof(js::ConstArray), sizeof(js::ObjectArray), sizeof(js::TryNoteArray),
sizeof(js::ScopeNoteArray).  The offset formulas hold for any values. -/
structure ArraySizes where
  scopeArray : Nat
  constArray : Nat
  objectArray : Nat
  tryNoteArray : Nat
  scopeNoteArray : Nat
deriving DecidableEq, Repr

def JSScript.scopesOffset (_s : JSScript) (_sz : ArraySizes) : Nat := 0

def JSScript.constsOffset (s : JSScript) (sz : ArraySizes) : Nat :=
  s.scopesOffset sz + sz.scopeArray

/-- OFF(constsOffset, hasConsts, js::ConstArray). -/
def JSScript.objectsOffset (s : JSScript) (sz : ArraySizes) : Nat :=
  s.constsOffset sz + (if s.hasConsts then sz.constArray else 0)

/-- OFF(objectsOffset, hasObjects, js::ObjectArray). -/
def JSScript.trynotesOffset (s : JSScript) (sz : ArraySizes) : Nat :=
  s.objectsOffset sz + (if s.hasObjects then sz.objectArray else 0)

/-- OFF(trynotesOffset, hasTrynotes, js::TryNoteArray). -/
def JSScript.scopeNotesOffset (s : JSScript) (sz : ArraySizes) : Nat :=
  s.trynotesOffset sz + (if s.hasTrynotes then sz.tryNoteArray else 0)

/-- OFF(scopeNotesOffset, hasScopeNotes, js::ScopeNoteArray). -/
def JSScript.yieldAndAwaitOffsetsOffset (s : JSScript) (sz : ArraySizes) : Nat :=
  s.scopeNotesOffset sz + (if s.hasScopeNotes then sz.scopeNoteArray else 0)

/-- C5. Trailing-array offset formulas: for every presence bitmask,
scopesOffset is 0, constsOffset adds sizeof(ScopeArray) unconditionally, and
each subsequent offset adds the preceding array's header size exactly when
that array is present; consequently each offset is a function only of the
presence bits of the arrays ordered before it (scripts agreeing on those bits
have equal offsets, whatever their later bits are). -/
theorem c5_offset_formulas (sz : ArraySizes) (s : JSScript)
    (s1 t1 s2 t2 s3 t3 s4 t4 : JSScript)
    (h1c : s1.hasConsts = t1.hasConsts)
    (h2c : s2.hasConsts = t2.hasConsts) (h2o : s2.hasObjects = t2.hasObjects)
    (h3c : s3.hasConsts = t3.hasConsts) (h3o : s3.hasObjects = t3.hasObjects)
    (h3t : s3.hasTrynotes = t3.hasTrynotes)
    (h4c : s4.hasConsts = t4.hasConsts) (h4o : s4.hasObjects = t4.hasObjects)
    (h4t : s4.hasTrynotes = t4.hasTrynotes)
    (h4s : s4.hasScopeNotes = t4.hasScopeNotes) :
    s.scopesOffset sz = 0 ∧
    s.constsOffset sz = s.scopesOffset sz + sz.scopeArray ∧
    s.objectsOffset sz = s.constsOffset sz + (if s.hasConsts then sz.constArray else 0) ∧
    s.trynotesOffset sz = s.objectsOffset sz + (if s.hasObjects then sz.objectArray else 0) ∧
    s.scopeNotesOffset sz = s.trynotesOffset sz + (if s.hasTrynotes then sz.tryNoteArray else 0) ∧
    s.yieldAndAwaitOffsetsOffset sz =
      s.scopeNotesOffset sz + (if s.hasScopeNotes then sz.scopeNoteArray else 0) ∧
    s1.objectsOffset sz = t1.objectsOffset sz ∧
    s2.trynotesOffset sz = t2.trynotesOffset sz ∧
    s3.scopeNotesOffset sz = t3.scopeNotesOffset sz ∧
    s4.yieldAndAwaitOffsetsOffset sz = t4.yieldAndAwaitOffsetsOffset sz := by
  refine ⟨rfl, rfl, rfl, rfl, rfl, rfl, ?_, ?_, ?_, ?_⟩
  · simp [JSScript.objectsOffset, JSScript.constsOffset, JSScript.scopesOffset, h1c]
  · simp [JSScript.trynotesOffset, JSScript.objectsOffset, JSScript.constsOffset,
      JSScript.scopesOffset, h2c, h2o]
  · simp [JSScript.scopeNotesOffset, JSScript.trynotesOffset, JSScript.objectsOffset,
      JSScript.constsOffset, JSScript.scopesOffset, h3c, h3o, h3t]
  · simp [JSScript.yieldAndAwaitOffsetsOffset, JSScript.scopeNotesOffset,
      JSScript.trynotesOffset, JSScript.objectsOffset, JSScript.constsOffset,
      JSScript.scopesOffset, h4c, h4o, h4t, h4s]

/-- Script with presence mask m (and otherwise default fields), for the C5
witness. -/
def c5Script (m : Nat) : JSScript :=
  { ion := .null, baseline := .null, lazyScript := none, types_ := none,
    bitFields_ :=
      { hasArrayBits_ := m, selfHosted_ := false, treatAsRunOnce_ := false,
        hasRunOnce_ := false, isActiveEval_ := false, isCachedEval_ := false,
        hasDebugScript_ := false, doNotRelazify_ := false, hasInnerFunctions_ := false,
        isDefaultClassConstructor_ := false, isGenerator_ := false, isAsync_ := false } }

def c5Sizes : ArraySizes := ⟨16, 16, 16, 16, 16⟩

theorem c5_offset_formulas_wit :
    (c5Script 5).scopesOffset c5Sizes = 0 ∧
    (c5Script 5).constsOffset c5Sizes = (c5Script 5).scopesOffset c5Sizes + c5Sizes.scopeArray ∧
    (c5Script 5).objectsOffset c5Sizes =
      (c5Script 5).constsOffset c5Sizes +
        (if (c5Script 5).hasConsts then c5Sizes.constArray else 0) ∧
    (c5Script 5).trynotesOffset c5Sizes =
      (c5Script 5).objectsOffset c5Sizes +
        (if (c5Script 5).hasObjects then c5Sizes.objectArray else 0) ∧
    (c5Script 5).scopeNotesOffset c5Sizes =
      (c5Script 5).trynotesOffset c5Sizes +
        (if (c5Script 5).hasTrynotes then c5Sizes.tryNoteArray else 0) ∧
    (c5Script 5).yieldAndAwaitOffsetsOffset c5Sizes =
      (c5Script 5).scopeNotesOffset c5Sizes +
        (if (c5Script 5).hasScopeNotes then c5Sizes.scopeNoteArray else 0) ∧
    (c5Script 1).objectsOffset c5Sizes = (c5Script 3).objectsOffset c5Sizes ∧
    (c5Script 3).trynotesOffset c5Sizes = (c5Script 7).trynotesOffset c5Sizes ∧
    (c5Script 7).scopeNotesOffset c5Sizes = (c5Script 15).scopeNotesOffset c5Sizes ∧
    (c5Script 15).yieldAndAwaitOffsetsOffset c5Sizes =
      (c5Script 15).yieldAndAwaitOffsetsOffset c5Sizes :=
  c5_offset_formulas c5Sizes (c5Script 5) (c5Script 1) (c5Script 3) (c5Script 3) (c5Script 7)
    (c5Script 7) (c5Script 15) (c5Script 15) (c5Script 15)
    (by decide) (by decide) (by decide) (by decide) (by decide) (by decide)
    (by decide) (by decide) (by decide) (by decide)

/-! ## Tier attachment transitions (lines 2096-2137; setters in JSScript.cpp) -/

/-- The tier-slot transitions of a Compiled Script. -/
inductive TierOp
  | attachBaseline (code : Nat)
  | disableBaseline
  | markIonCompiling
  | markIonPending
  | attachIon (code : Nat)
  | disableIon
  | detachOptimizing
deriving DecidableEq, Repr

/-- Modelled from the spec: setBaselineScript / setIonScript bodies live in
JSScript.cpp and the JIT, outside this repository slice.  Guards follow the
spec (baseline must be attached before any optimizing-tier state beyond
null/disabled, matching the MOZ_ASSERT_IF in hasBaselineScript; invalidation
always succeeds and reverts the ion slot to null without touching baseline)
and the assertions inside hasIonScript/hasBaselineScript. -/
def tierStep (s : JSScript) : TierOp → Option JSScript
  | .attachBaseline code =>
    if s.canBaselineCompile then some { s with baseline := .baselineScript code } else none
  | .disableBaseline =>
    if s.ion == .null || s.ion == .disabledScript then
      some { s with baseline := .disabledScript }
    else none
  | .markIonCompiling =>
    if s.hasBaselineScript && s.canIonCompile then
      some { s with ion := .compilingScript }
    else none
  | .markIonPending =>
    if s.hasBaselineScript && s.canIonCompile then
      some { s with ion := .pendingScript }
    else none
  | .attachIon code =>
    if s.hasBaselineScript && s.canIonCompile then
      some { s with ion := .ionScript code }
    else none
  | .disableIon => some { s with ion := .disabledScript }
  | .detachOptimizing => some { s with ion := .null }

/-- Tier states reachable from a freshly created script (both slots are
initialized to nullptr in the JSScript constructor). -/
inductive TierReachable : JSScript → Prop
  | init (s : JSScript) : s.ion = .null → s.baseline = .null → TierReachable s
  | step (s t : JSScript) (op : TierOp) :
      TierReachable s → tierStep s op = some t → TierReachable t

/-- The assertion inside hasBaselineScript: when no baseline code is attached,
the ion slot is nullptr or ION_DISABLED_SCRIPT. -/
def tierInvariant (s : JSScript) : Prop :=
  s.hasBaselineScript = false → s.ion = .null ∨ s.ion = .disabledScript

theorem tierStep_invariant (s t : JSScript) (op : TierOp)
    (_hinv : tierInvariant s) (h : tierStep s op = some t) : tierInvariant t := by
  cases op with
  | attachBaseline code =>
    by_cases hg : s.canBaselineCompile = true
    · simp [tierStep, hg] at h
      intro hb
      rw [← h] at hb
      simp [JSScript.hasBaselineScript] at hb
    · simp [tierStep, hg] at h
  | disableBaseline =>
    by_cases hg : (s.ion == .null || s.ion == .disabledScript) = true
    · simp only [tierStep, hg, if_true, Option.some_inj] at h
      intro _
      rw [← h]
      simp only []
      rcases Bool.or_eq_true _ _ |>.mp hg with hg1 | hg1
      · exact Or.inl (by simpa using hg1)
      · exact Or.inr (by simpa using hg1)
    · simp [tierStep] at h
      simp [Bool.or_eq_true] at hg
      push_neg at hg
      simp [hg.1, hg.2] at h
  | markIonCompiling =>
    by_cases hg : (s.hasBaselineScript && s.canIonCompile) = true
    · simp only [tierStep, hg, if_true, Option.some_inj] at h
      intro hb
      rw [← h] at hb
      rw [Bool.and_eq_true] at hg
      have hgb := hg.1
      simp only [JSScript.hasBaselineScript] at hb hgb
      rw [hb] at hgb
      simp at hgb
    · simp [tierStep, hg] at h
  | markIonPending =>
    by_cases hg : (s.hasBaselineScript && s.canIonCompile) = true
    · simp only [tierStep, hg, if_true, Option.some_inj] at h
      intro hb
      rw [← h] at hb
      rw [Bool.and_eq_true] at hg
      have hgb := hg.1
      simp only [JSScript.hasBaselineScript] at hb hgb
      rw [hb] at hgb
      simp at hgb
    · simp [tierStep, hg] at h
  | attachIon code =>
    by_cases hg : (s.hasBaselineScript && s.canIonCompile) = true
    · simp only [tierStep, hg, if_true, Option.some_inj] at h
      intro hb
      rw [← h] at hb
      rw [Bool.and_eq_true] at hg
      have hgb := hg.1
      simp only [JSScript.hasBaselineScript] at hb hgb
      rw [hb] at hgb
      simp at hgb
    · simp [tierStep, hg] at h
  | disableIon =>
    simp only [tierStep, Option.some_inj] at h
    intro _
    rw [← h]
    exact Or.inr rfl
  | detachOptimizing =>
    simp only [tierStep, Option.some_inj] at h
    intro _
    rw [← h]
    exact Or.inl rfl

theorem tierReachable_invariant (s : JSScript) (h : TierReachable s) : tierInvariant s := by
  induction h with
  | init s hion hbase =>
    intro _
    exact Or.inl hion
  | step s t op _ hstep ih => exact tierStep_invariant s t op ih hstep

/-- C2. Tier-ordering invariant: in every reachable tier state, if real
optimizing-tier code is attached (hasIonScript: the ion slot is neither null
nor one of the disabled/compiling/pending sentinels) then baseline code is
attached too; detachOptimizing always succeeds and never changes the baseline
slot; and attaching the optimizing tier while no baseline is attached fails. -/
theorem c2_tier_ordering (s t t2 u : JSScript) (code : Nat)
    (hs : TierReachable s)
    (hd : tierStep t .detachOptimizing = some t2)
    (hu : u.hasBaselineScript = false) :
    (s.hasIonScript = true → s.hasBaselineScript = true) ∧
    t2.baseline = t.baseline ∧
    (∀ v : JSScript, (tierStep v .detachOptimizing).isSome = true) ∧
    tierStep u (.attachIon code) = none := by
  refine ⟨?_, ?_, ?_, ?_⟩
  · intro hion
    have hinv := tierReachable_invariant s hs
    by_cases hb : s.hasBaselineScript = true
    · exact hb
    · have hb2 : s.hasBaselineScript = false := by
        revert hb; cases hx : s.hasBaselineScript <;> simp
      rcases hinv hb2 with h0 | h0 <;>
        simp [JSScript.hasIonScript, h0] at hion
  · simp only [tierStep, Option.some_inj] at hd
    rw [← hd]
  · intro v
    simp [tierStep]
  · simp [tierStep, hu]

def c2Base : JSScript := c5Script 0

def c2WithBaseline : JSScript := { c2Base with baseline := .baselineScript 11 }

def c2WithIon : JSScript := { c2WithBaseline with ion := .ionScript 22 }

theorem c2_tier_ordering_wit :
    (c2WithIon.hasIonScript = true → c2WithIon.hasBaselineScript = true) ∧
    ({ c2WithIon with ion := .null } : JSScript).baseline = c2WithIon.baseline ∧
    (∀ v : JSScript, (tierStep v .detachOptimizing).isSome = true) ∧
    tierStep c2Base (.attachIon 5) = none := by
  exact c2_tier_ordering c2WithIon c2WithIon { c2WithIon with ion := .null } c2Base 5
    (TierReachable.step c2WithBaseline c2WithIon (.attachIon 22)
      (TierReachable.step c2Base c2WithBaseline (.attachBaseline 11)
        (TierReachable.init c2Base rfl rfl) (by decide))
      (by decide))
    (by decide) (by decide)

/-! ## Lazy Script Stub: LazyScript (lines 2672-2911) -/

/-- The enclosingLazyScriptOrScope_ field: nullptr for the incomplete state,
an enclosing LazyScript, or an enclosing Scope (ids stand for pointers). -/
inductive EnclosingRef
  | nullRef
  | lazyScriptRef (id : Nat)
  | scopeRef (id : Nat)
deriving DecidableEq, Repr

/-- The LazyScript fields the claims depend on: the weak forwarding pointer
script_ to the compiled result and the enclosing reference. -/
structure LazyScript where
  script_ : Option Nat
  enclosingLazyScriptOrScope_ : EnclosingRef
deriving DecidableEq, Repr

/-- hasEnclosingScope(): enclosingLazyScriptOrScope_ && is Scope. -/
def LazyScript.hasEnclosingScope (l : LazyScript) : Bool :=
  match l.enclosingLazyScriptOrScope_ with
  | .scopeRef _ => true
  | _ => false

/-- hasEnclosingLazyScript(): enclosingLazyScriptOrScope_ && is LazyScript. -/
def LazyScript.hasEnclosingLazyScript (l : LazyScript) : Bool :=
  match l.enclosingLazyScriptOrScope_ with
  | .lazyScriptRef _ => true
  | _ => false

/-- Modelled from the spec: the body of setEnclosingLazyScript lives in
JSScript.cpp, outside this slice.  Per the transition diagram documented at
the enclosingLazyScriptOrScope_ field (lines 2683-2758), it cannot be called
twice and the field never points back to a LazyScript once it points to a
Scope, so the call only succeeds from the nullptr state. -/
def LazyScript.setEnclosingLazyScript (l : LazyScript) (stub : Nat) : Option LazyScript :=
  if l.hasEnclosingLazyScript then none
  else if l.hasEnclosingScope then none
  else some { l with enclosingLazyScriptOrScope_ := .lazyScriptRef stub }

/-- Modelled from the spec: the body of setEnclosingScope lives in
JSScript.cpp, outside this slice.  Per the transition diagram (lines
2683-2758), it cannot be called twice, and it is the transition taken from
either the nullptr state or the enclosing-LazyScript state when the enclosing
script is successfully compiled. -/
def LazyScript.setEnclosingScope (l : LazyScript) (scope : Nat) : Option LazyScript :=
  if l.hasEnclosingScope then none
  else some { l with enclosingLazyScriptOrScope_ := .scopeRef scope }

/-- Rank of the enclosing reference in the monotonic transition order. -/
def EnclosingRef.rank : EnclosingRef → Nat
  | .nullRef => 0
  | .lazyScriptRef _ => 1
  | .scopeRef _ => 2

/-- C7 counterexample: starting from the uninitialized state,
setEnclosingLazyScript succeeds, and setEnclosingScope then also succeeds on
the result (the documented stub-to-scope transition taken when the enclosing
script finishes compiling) — so a call made after the other setter has
already succeeded is not an assertion failure, refuting that part of the
claim. -/
theorem c7_enclosing_counterexample :
    LazyScript.setEnclosingLazyScript ⟨none, .nullRef⟩ 1 = some ⟨none, .lazyScriptRef 1⟩ ∧
    LazyScript.setEnclosingScope ⟨none, .lazyScriptRef 1⟩ 2 = some ⟨none, .scopeRef 2⟩ := by
  decide

/-- C7 (amended). The enclosing reference is one of null / enclosing stub /
enclosing scope and only ever transitions forward (null to stub, null to
scope, stub to scope): each successful setter strictly increases the rank and
neither setter can fire once a scope is recorded, so the reference never goes
from scope back to stub or null; setEnclosingLazyScript fails whenever either
setter has already succeeded, while setEnclosingScope fails only after
setEnclosingScope itself has succeeded — it is the sanctioned stub-to-scope
transition after setEnclosingLazyScript. -/
theorem c7_enclosing_monotonic (l m n : LazyScript) (stub scope : Nat)
    (a b : LazyScript) (sc : Nat)
    (hl : l.setEnclosingLazyScript stub = some m)
    (hn : n.setEnclosingScope scope = some b)
    (ha : a.hasEnclosingLazyScript = true) :
    l.enclosingLazyScriptOrScope_ = .nullRef ∧
    m.enclosingLazyScriptOrScope_ = .lazyScriptRef stub ∧
    l.enclosingLazyScriptOrScope_.rank < m.enclosingLazyScriptOrScope_.rank ∧
    n.hasEnclosingScope = false ∧
    b.enclosingLazyScriptOrScope_ = .scopeRef scope ∧
    n.enclosingLazyScriptOrScope_.rank < b.enclosingLazyScriptOrScope_.rank ∧
    (∀ x : LazyScript, x.hasEnclosingScope = true →
      x.setEnclosingLazyScript sc = none ∧ x.setEnclosingScope sc = none) ∧
    (a.setEnclosingScope sc).isSome = true := by
  have hlcases : l.enclosingLazyScriptOrScope_ = .nullRef := by
    unfold LazyScript.setEnclosingLazyScript at hl
    cases he : l.enclosingLazyScriptOrScope_ with
    | nullRef => rfl
    | lazyScriptRef id =>
      rw [show l.hasEnclosingLazyScript = true by
        unfold LazyScript.hasEnclosingLazyScript; rw [he]] at hl
      simp at hl
    | scopeRef id =>
      rw [show l.hasEnclosingLazyScript = false by
        unfold LazyScript.hasEnclosingLazyScript; rw [he]] at hl
      rw [show l.hasEnclosingScope = true by
        unfold LazyScript.hasEnclosingScope; rw [he]] at hl
      simp at hl
  have hm : m = { l with enclosingLazyScriptOrScope_ := .lazyScriptRef stub } := by
    unfold LazyScript.setEnclosingLazyScript at hl
    rw [show l.hasEnclosingLazyScript = false by
      unfold LazyScript.hasEnclosingLazyScript; rw [hlcases]] at hl
    rw [show l.hasEnclosingScope = false by
      unfold LazyScript.hasEnclosingScope; rw [hlcases]] at hl
    simp at hl
    exact hl.symm
  have hnscope : n.hasEnclosingScope = false := by
    unfold LazyScript.setEnclosingScope at hn
    cases hx : n.hasEnclosingScope with
    | false => rfl
    | true => rw [hx] at hn; simp at hn
  have hb : b = { n with enclosingLazyScriptOrScope_ := .scopeRef scope } := by
    unfold LazyScript.setEnclosingScope at hn
    rw [hnscope] at hn
    simp at hn
    exact hn.symm
  have hnrank : n.enclosingLazyScriptOrScope_.rank < 2 := by
    unfold LazyScript.hasEnclosingScope at hnscope
    cases he : n.enclosingLazyScriptOrScope_ with
    | nullRef => simp [EnclosingRef.rank]
    | lazyScriptRef id => simp [EnclosingRef.rank]
    | scopeRef id => rw [he] at hnscope; simp at hnscope
  refine ⟨hlcases, ?_, ?_, hnscope, ?_, ?_, ?_, ?_⟩
  · rw [hm]
  · rw [hm, hlcases]
    simp [EnclosingRef.rank]
  · rw [hb]
  · rw [hb]
    exact hnrank
  · intro x hx
    constructor
    · unfold LazyScript.setEnclosingLazyScript
      cases hy : x.hasEnclosingLazyScript with
      | true => simp
      | false => simp [hx]
    · unfold LazyScript.setEnclosingScope
      simp [hx]
  · unfold LazyScript.setEnclosingScope
    have : a.hasEnclosingScope = false := by
      unfold LazyScript.hasEnclosingLazyScript at ha
      unfold LazyScript.hasEnclosingScope
      cases he : a.enclosingLazyScriptOrScope_ with
      | nullRef => rfl
      | lazyScriptRef id => rfl
      | scopeRef id => rw [he] at ha; simp at ha
    simp [this]

theorem c7_enclosing_monotonic_wit :
    (⟨none, .nullRef⟩ : LazyScript).enclosingLazyScriptOrScope_ = .nullRef ∧
    (⟨none, .lazyScriptRef 3⟩ : LazyScript).enclosingLazyScriptOrScope_ = .lazyScriptRef 3 ∧
    (⟨none, .nullRef⟩ : LazyScript).enclosingLazyScriptOrScope_.rank <
      (⟨none, .lazyScriptRef 3⟩ : LazyScript).enclosingLazyScriptOrScope_.rank ∧
    (⟨none, .lazyScriptRef 3⟩ : LazyScript).hasEnclosingScope = false ∧
    (⟨none, .scopeRef 4⟩ : LazyScript).enclosingLazyScriptOrScope_ = .scopeRef 4 ∧
    (⟨none, .lazyScriptRef 3⟩ : LazyScript).enclosingLazyScriptOrScope_.rank <
      (⟨none, .scopeRef 4⟩ : LazyScript).enclosingLazyScriptOrScope_.rank ∧
    (∀ x : LazyScript, x.hasEnclosingScope = true →
      x.setEnclosingLazyScript 9 = none ∧ x.setEnclosingScope 9 = none) ∧
    ((⟨none, .lazyScriptRef 3⟩ : LazyScript).setEnclosingScope 9).isSome = true :=
  c7_enclosing_monotonic ⟨none, .nullRef⟩ ⟨none, .lazyScriptRef 3⟩ ⟨none, .lazyScriptRef 3⟩
    3 4 ⟨none, .lazyScriptRef 3⟩ ⟨none, .scopeRef 4⟩ 9
    (by decide) (by decide) (by decide)

/-- maybeScript(): the weak forwarding pointer, or nullptr. -/
def LazyScript.maybeScript (l : LazyScript) : Option Nat := l.script_

/-- hasScript(): bool(script_). -/
def LazyScript.hasScript (l : LazyScript) : Bool := l.script_.isSome

/-- initScript(script): records the forwarding pointer to the compiled
script (body in JSScript.cpp; it stores the non-null pointer). -/
def LazyScript.initScript (l : LazyScript) (script : Nat) : LazyScript :=
  { l with script_ := some script }

/-- Modelled from the spec: delazification itself (JSFunction delazification
driving the full parse) is outside this slice.  Per spec 4.4, delazify
triggers a full compile of the covered span (the fresh result is the compiled
argument), records a weak back-reference on success, and is idempotent if
already delazified and the result is still alive: it returns the existing
script rather than recompiling. -/
def LazyScript.delazify (l : LazyScript) (compiled : Nat) : LazyScript × Nat :=
  match l.script_ with
  | some s => (l, s)
  | none => (l.initScript compiled, compiled)

/-- C8. Delazification idempotence: a first successful delazification records
a weak back-reference to the produced script (hasScript becomes true and
maybeScript returns it), and a second delazification performed while that
weak reference is intact returns the identical script without recompiling
(even if the compiler would have produced a different fresh result) and
leaves the stub unchanged. -/
theorem c8_delazify_idempotent (l : LazyScript) (c c2 : Nat)
    (h : l.hasScript = false) :
    (l.delazify c).1.maybeScript = some (l.delazify c).2 ∧
    (l.delazify c).1.hasScript = true ∧
    (l.delazify c).2 = c ∧
    ((l.delazify c).1.delazify c2).2 = (l.delazify c).2 ∧
    ((l.delazify c).1.delazify c2).1 = (l.delazify c).1 := by
  have hnone : l.script_ = none := by
    unfold LazyScript.hasScript at h
    cases hx : l.script_ with
    | none => rfl
    | some v => rw [hx] at h; simp at h
  simp [LazyScript.delazify, hnone, LazyScript.initScript, LazyScript.maybeScript,
    LazyScript.hasScript]

theorem c8_delazify_idempotent_wit :
    ((⟨none, .nullRef⟩ : LazyScript).delazify 5).1.maybeScript =
      some ((⟨none, .nullRef⟩ : LazyScript).delazify 5).2 ∧
    ((⟨none, .nullRef⟩ : LazyScript).delazify 5).1.hasScript = true ∧
    ((⟨none, .nullRef⟩ : LazyScript).delazify 5).2 = 5 ∧
    (((⟨none, .nullRef⟩ : LazyScript).delazify 5).1.delazify 8).2 =
      ((⟨none, .nullRef⟩ : LazyScript).delazify 5).2 ∧
    (((⟨none, .nullRef⟩ : LazyScript).delazify 5).1.delazify 8).1 =
      ((⟨none, .nullRef⟩ : LazyScript).delazify 5).1 :=
  c8_delazify_idempotent ⟨none, .nullRef⟩ 5 8 (by decide)

/-! ## Pinned source units under deferred compression (lines 490-598) -/

/-- The active representation of a Source Record's text. -/
inductive SourceRep
  | uncompressed (units : List Nat)
  | compressed (raw : List Nat)
deriving DecidableEq, Repr

/-- Modelled from the spec: the PinnedUnits constructor/destructor and
setCompressedSource live in JSScript.cpp, outside this slice.  State carried
by ScriptSource: the active data variant, the stack of outstanding pins
(pinnedUnitsStack_, head = most recent, last = bottom/first outstanding; each
entry records the units pointer the pin handed out, i.e. the representation
it observed), and pendingCompressed_. -/
structure PinSourceState where
  data : SourceRep
  pinnedUnitsStack_ : List SourceRep
  pendingCompressed_ : Option SourceRep
deriving DecidableEq, Repr

/-- Events on a Source Record relevant to pin safety. -/
inductive PinOp
  | pin
  | unpin
  | finishCompression (raw : List Nat)
deriving DecidableEq, Repr

/-- Modelled from the spec: taking a pin hands out a pointer into the current
representation; releasing the most recent pin pops the stack, and the bottom
(first outstanding) pin applies any pending compressed source upon its
release; a compression that completes with pins outstanding is stored as
pending rather than applied, and one completing with no pins outstanding is
applied immediately. -/
def pinStep (s : PinSourceState) : PinOp → Option PinSourceState
  | .pin => some { s with pinnedUnitsStack_ := s.data :: s.pinnedUnitsStack_ }
  | .unpin =>
    match s.pinnedUnitsStack_ with
    | [] => none
    | [_] =>
      match s.pendingCompressed_ with
      | some c => some { data := c, pinnedUnitsStack_ := [], pendingCompressed_ := none }
      | none => some { s with pinnedUnitsStack_ := [] }
    | _ :: rest => some { s with pinnedUnitsStack_ := rest }
  | .finishCompression raw =>
    if s.pinnedUnitsStack_.isEmpty then
      some { s with data := .compressed raw, pendingCompressed_ := none }
    else
      some { s with pendingCompressed_ := some (.compressed raw) }

/-- States reachable from an uncompressed record with no outstanding pins. -/
inductive PinReachable : PinSourceState → Prop
  | init (u : List Nat) : PinReachable ⟨.uncompressed u, [], none⟩
  | step (s t : PinSourceState) (op : PinOp) :
      PinReachable s → pinStep s op = some t → PinReachable t

/-- Every pointer handed out by an outstanding pin equals the current
representation: the active data never moves under a live pin. -/
def pinInvariant (s : PinSourceState) : Prop :=
  ∀ r ∈ s.pinnedUnitsStack_, r = s.data

theorem pinStep_invariant (s t : PinSourceState) (op : PinOp)
    (hinv : pinInvariant s) (h : pinStep s op = some t) : pinInvariant t := by
  cases op with
  | pin =>
    simp only [pinStep, Option.some_inj] at h
    intro r hr
    rw [← h] at hr ⊢
    simp only [List.mem_cons] at hr
    rcases hr with hr | hr
    · rw [hr]
    · exact hinv r hr
  | unpin =>
    cases hst : s.pinnedUnitsStack_ with
    | nil => simp [pinStep, hst] at h
    | cons p rest =>
      cases hrest : rest with
      | nil =>
        cases hpend : s.pendingCompressed_ with
        | some c =>
          rw [hrest] at hst
          simp only [pinStep, hst, hpend, Option.some_inj] at h
          intro r hr
          rw [← h] at hr
          simp at hr
        | none =>
          rw [hrest] at hst
          simp only [pinStep, hst, hpend, Option.some_inj] at h
          intro r hr
          rw [← h] at hr
          simp at hr
      | cons q rest2 =>
        rw [hrest] at hst
        simp only [pinStep, hst, Option.some_inj] at h
        intro r hr
        rw [← h] at hr ⊢
        simp only at hr
        apply hinv
        rw [hst]
        exact List.mem_cons_of_mem _ hr
  | finishCompression raw =>
    cases hst : s.pinnedUnitsStack_ with
    | nil =>
      simp only [pinStep, hst, List.isEmpty_nil, if_true, Option.some_inj] at h
      intro r hr
      rw [← h] at hr
      simp [hst] at hr
    | cons p rest =>
      simp only [pinStep, hst, List.isEmpty_cons, Bool.false_eq_true, if_false,
        Option.some_inj] at h
      intro r hr
      rw [← h] at hr ⊢
      simp only at hr
      apply hinv
      rw [hst]
      exact hr

theorem pinReachable_invariant (s : PinSourceState) (h : PinReachable s) : pinInvariant s := by
  induction h with
  | init u => intro r hr; simp at hr
  | step s t op _ hstep ih => exact pinStep_invariant s t op ih hstep

/-- C6. Pin safety under deferred compression: if any pin is outstanding when
background compression completes, the result is stored as pending and the
active representation (hence every pointer an outstanding pin handed out,
which by the reachability invariant always equals the active representation)
is unchanged; releasing the bottom-of-stack (first outstanding) pin applies
the pending compressed representation; and a pin taken after that release
observes the compressed representation. -/
theorem c6_pin_safety (s : PinSourceState) (raw : List Nat)
    (w : PinSourceState) (p : SourceRep) (c : SourceRep)
    (hr : PinReachable s)
    (hpins : s.pinnedUnitsStack_ ≠ [])
    (hw : w.pinnedUnitsStack_ = [p])
    (hpend : w.pendingCompressed_ = some c) :
    (∀ u ∈ s.pinnedUnitsStack_, u = s.data) ∧
    pinStep s (.finishCompression raw) =
      some { s with pendingCompressed_ := some (.compressed raw) } ∧
    pinStep w .unpin = some ⟨c, [], none⟩ ∧
    pinStep (⟨c, [], none⟩ : PinSourceState) .pin = some ⟨c, [c], none⟩ := by
  refine ⟨pinReachable_invariant s hr, ?_, ?_, rfl⟩
  · have : s.pinnedUnitsStack_.isEmpty = false := by
      cases hx : s.pinnedUnitsStack_ with
      | nil => exact absurd hx hpins
      | cons a l => simp
    simp [pinStep, this]
  · simp [pinStep, hw, hpend]

/-- Concrete state for the C6 witness: one outstanding pin holding the
uncompressed units, reached by pinning the initial record. -/
def c6Pinned : PinSourceState :=
  ⟨.uncompressed [7, 7, 7], [.uncompressed [7, 7, 7]], none⟩

/-- The same record after compression completed under the pin. -/
def c6PinnedPending : PinSourceState :=
  ⟨.uncompressed [7, 7, 7], [.uncompressed [7, 7, 7]], some (.compressed [9])⟩

theorem c6_pin_safety_wit :
    (∀ u ∈ c6Pinned.pinnedUnitsStack_, u = c6Pinned.data) ∧
    pinStep c6Pinned (.finishCompression [9]) =
      some { c6Pinned with pendingCompressed_ := some (.compressed [9]) } ∧
    pinStep c6PinnedPending .unpin = some ⟨.compressed [9], [], none⟩ ∧
    pinStep (⟨.compressed [9], [], none⟩ : PinSourceState) .pin =
      some ⟨.compressed [9], [.compressed [9]], none⟩ :=
  c6_pin_safety c6Pinned [9] c6PinnedPending (.uncompressed [7, 7, 7]) (.compressed [9])
    (PinReachable.step ⟨.uncompressed [7, 7, 7], [], none⟩ c6Pinned .pin
      (PinReachable.init [7, 7, 7]) (by decide))
    (by decide) (by decide) (by decide)
